import Mathlib

/-!
Verification of `src/TrackMate/3D_Nuclei_Segmentation_StarDist_TrackMate.py`
(Leiden-Cell-Observatory/Fiji_scripts).

The script is a Fiji/Jython orchestration: for each input file it opens the
image, validates the target channel, loops over timepoints, hands each
timepoint's z-stack (with z reinterpreted as the frame axis) to the external
TrackMate/StarDist pipeline, appends the exported label slices (or blank
slices on any failure) to an accumulating stack, reshapes the stack into a
hyperstack and writes one TIFF per input file.

The embedding below models ImageJ images as explicit records (`Img`), the
ImageJ operations the script calls (`Duplicator().run`, `setDimensions`,
`HyperStackConverter.toHyperStack`, `RGBStackMerge.mergeChannels`,
`IJ.createImage`) as Lean functions over those records, and the opaque
external services (TrackMate checkInput/process, label export) as an
environment choosing a `TMOutcome` per invocation.
-/

/-- Pixel plane of one slice: a flattened `width*height` pixel list plus the
bit depth. `IJ.createImage(..., 16)` produces an all-zero 16-bit plane. -/
structure SlicePix where
  pixels : List Nat
  bitDepth : Nat
deriving DecidableEq, Repr

/-- Tag recorded in the slice label string appended to the output stack:
`"t{}_z{}_empty"` on checkInput/process/export failures, `"t{}_z{}_error"`
in the exception handler, `"t{}_z{}"` on success. -/
inductive SliceTag where
  | empty
  | error
  | normal
deriving DecidableEq, Repr

/-- One entry of the accumulating `output_stack`: the slice label's timepoint
and z index, the label suffix, and the pixel plane. -/
structure StackSlice where
  t : Nat
  z : Nat
  tag : SliceTag
  pix : SlicePix
deriving DecidableEq, Repr

/-- An ImageJ `ImagePlus`: spatial size, the (channels, z-slices, frames)
dimension triple, the flat stack of slices in ImageJ order (channel varies
fastest, then z, then frame), and a calibration token standing for the
`Calibration` object. -/
structure Img where
  width : Nat
  height : Nat
  nChannels : Nat
  nSlices : Nat
  nFrames : Nat
  stack : List SlicePix
  cal : Nat
deriving DecidableEq, Repr

/-- `ImageStack`/`ImagePlus` slice lookup: ImageJ's
`getStackIndex(c, z, t) = (t-1)*nChannels*nSlices + (z-1)*nChannels + c`,
zero-based here, with a default plane when out of range. -/
def getSliceD (im : Img) (c z t : Nat) : SlicePix :=
  im.stack.getD ((t - 1) * im.nChannels * im.nSlices + (z - 1) * im.nChannels + (c - 1))
    ⟨[], 0⟩

/-- `ImagePlus.setDimensions(nChannels, nSlices, nFrames)`: reinterprets the
dimension triple when the product matches the stack size, otherwise ImageJ
silently resets to `(1, stackSize, 1)`. -/
def setDimensions (im : Img) (c z t : Nat) : Img :=
  if c * z * t = im.stack.length then
    { im with nChannels := c, nSlices := z, nFrames := t }
  else
    { im with nChannels := 1, nSlices := im.stack.length, nFrames := 1 }

/-- `Duplicator().run(imp, firstC, lastC, firstZ, lastZ, firstT, lastT)`:
copies the inclusive channel/z/frame ranges into a new image, keeping the
calibration. -/
def dupRun (im : Img) (c1 c2 z1 z2 t1 t2 : Nat) : Img :=
  { width := im.width
    height := im.height
    nChannels := c2 - c1 + 1
    nSlices := z2 - z1 + 1
    nFrames := t2 - t1 + 1
    stack :=
      (List.range (t2 - t1 + 1)).flatMap fun dt =>
        (List.range (z2 - z1 + 1)).flatMap fun dz =>
          (List.range (c2 - c1 + 1)).map fun dc =>
            getSliceD im (c1 + dc) (z1 + dz) (t1 + dt)
    cal := im.cal }

/-- The blank plane created by `IJ.createImage("Empty", width, height, 1, 16)`:
all-zero pixels, 16-bit. -/
def emptySlicePix (w h : Nat) : SlicePix :=
  ⟨List.replicate (w * h) 0, 16⟩

/-- The fallback `for z in range(n_slices): output_stack.addSlice(...)` loop:
`n_slices` blank slices labelled with the failing timepoint `t` and z indices
`1..n_slices`. -/
def blankFill (w h nslices t : Nat) (tag : SliceTag) : List StackSlice :=
  (List.range nslices).map fun z => ⟨t, z + 1, tag, emptySlicePix w h⟩

/-- Outcome of one timepoint's interaction with the external
TrackMate/StarDist pipeline: `checkInput` false, `process` false,
`createLabelImagePlus` returning null, an exception raised inside the `try`
block, or a successful export carrying the exported label image's stack
(one plane per frame of the exported image). -/
inductive TMOutcome where
  | checkInputFail
  | processFail
  | exportNull
  | exception
  | success (label : List SlicePix)
deriving DecidableEq, Repr

/-- Whether the outcome takes one of the four fallback (blank-fill) paths. -/
def TMOutcome.isFailure : TMOutcome → Bool
  | .success _ => false
  | _ => true

/-- The exported label image as an `ImagePlus`: `createLabelImagePlus` returns
an image with the dimensions of the input `imp_t`, i.e. one channel, one
z-slice and one frame per exported plane. -/
def labelImgOf (w h : Nat) (l : List SlicePix) : Img :=
  ⟨w, h, 1, 1, l.length, l, 0⟩

/-- Lines 153-154: `n_label_frames = label_imp_t.getNFrames();
label_imp_t.setDimensions(1, n_label_frames, 1)` — the frame axis is
reinterpreted back as the z axis. -/
def frameToZ (im : Img) : Img :=
  setDimensions im 1 im.nFrames 1

/-- The success-path append loop (lines 157-160): after the frame-to-z remap,
`for z in range(1, label_imp_t.getNSlices() + 1)` appends slice `z`'s
processor under the label `"t{}_z{}"`. -/
def successAppend (w h t : Nat) (l : List SlicePix) : List StackSlice :=
  let lab := frameToZ (labelImgOf w h l)
  (List.range lab.nSlices).map fun i => ⟨t, i + 1, .normal, lab.stack.getD i ⟨[], 0⟩⟩

/-- One iteration of the timepoint loop body, given the external outcome:
returns the slices appended to `output_stack` and the increment of
`successful_timepoints`. -/
def processTimepoint (w h nslices t : Nat) (o : TMOutcome) : List StackSlice × Nat :=
  match o with
  | .checkInputFail => (blankFill w h nslices t .empty, 0)
  | .processFail => (blankFill w h nslices t .empty, 0)
  | .exportNull => (blankFill w h nslices t .empty, 0)
  | .exception => (blankFill w h nslices t .error, 0)
  | .success l => (successAppend w h t l, 1)

/-- Lines 81-84: `imp_t = Duplicator().run(imp, target_channel,
target_channel, 1, n_slices, t, t); imp_t.setDimensions(1, 1, n_slices)` —
the sub-volume handed to TrackMate via `Settings(imp_t)`. -/
def subVolumeFor (src : Img) (tc t : Nat) : Img :=
  setDimensions (dupRun src tc tc 1 src.nSlices t t) 1 1 src.nSlices

/-- The external pipeline's behaviour for one timepoint, as a function of the
timepoint index and the sub-volume handed to it. -/
def timepointOutcome (src : Img) (tc : Nat) (env : Nat → Img → TMOutcome) (t : Nat) :
    TMOutcome :=
  env t (subVolumeFor src tc t)

/-- The whole timepoint loop (lines 76-173): the accumulated `output_stack`
after `for t in range(1, n_frames + 1)`. -/
def outputStackOf (src : Img) (tc : Nat) (env : Nat → Img → TMOutcome) : List StackSlice :=
  (List.range src.nFrames).flatMap fun i =>
    (processTimepoint src.width src.height src.nSlices (i + 1)
      (timepointOutcome src tc env (i + 1))).1

/-- `ImagePlus("Labels", output_stack)`: a fresh image over a flat stack has
dimensions `(1, stackSize, 1)` and default calibration. -/
def imgOfStack (w h : Nat) (ss : List StackSlice) : Img :=
  ⟨w, h, 1, ss.length, 1, ss.map StackSlice.pix, 0⟩

/-- `HyperStackConverter.toHyperStack(imp, c, z, t, "default", "Grayscale")`:
reinterprets the flat stack as a (c, z, t) hyperstack, throwing
(`none` here) when `c*z*t` differs from the stack size. -/
def toHyperStack (im : Img) (c z t : Nat) : Option Img :=
  if c * z * t = im.stack.length then
    some { im with nChannels := c, nSlices := z, nFrames := t }
  else
    none

/-- `imp.setCalibration(cal)`. -/
def setCal (im : Img) (c : Nat) : Img :=
  { im with cal := c }

/-- Lines 184-196: build the label hyperstack from the accumulated stack —
`toHyperStack(label_imp, 1, n_slices, n_frames, ...)` followed by
`label_imp.setCalibration(imp.getCalibration())`. An `IllegalArgumentException`
from the converter propagates to the per-file handler (`none`). -/
def labelHyperOf (src : Img) (stack : List StackSlice) : Option Img :=
  (toHyperStack (imgOfStack src.width src.height stack) 1 src.nSlices src.nFrames).map
    fun im => setCal im src.cal

/-- The channel planes of one (z, t) position of an image, in channel order. -/
def planeChannels (im : Img) (z t : Nat) : List SlicePix :=
  (List.range im.nChannels).map fun c => getSliceD im (c + 1) z t

/-- `RGBStackMerge.mergeChannels(images, false)`: combines the images into one
whose channel count is the sum of the inputs', interleaving each input's
channel planes at every (z, t) position; size, z/frame counts and calibration
come from the first image. -/
def mergeChannels : List Img → Img
  | [] => ⟨0, 0, 0, 0, 0, [], 0⟩
  | i :: rest =>
    { width := i.width
      height := i.height
      nChannels := ((i :: rest).map Img.nChannels).sum
      nSlices := i.nSlices
      nFrames := i.nFrames
      stack :=
        (List.range i.nFrames).flatMap fun ti =>
          (List.range i.nSlices).flatMap fun zi =>
            (i :: rest).flatMap fun im => planeChannels im (zi + 1) (ti + 1)
      cal := i.cal }

/-- Index of the last `.` in a character list, if any. -/
def lastDotIdx (cs : List Char) : Option Nat :=
  (cs.enum.filterMap fun p => if p.2 = '.' then some p.1 else none).getLast?

/-- `os.path.splitext(name)[0]` for a bare file name (no directory
separators): drop the extension starting at the last dot, unless every
character before that dot is itself a dot (then the name is returned whole,
e.g. `".bashrc"`). -/
def splitextBase (s : String) : String :=
  let cs := s.data
  match lastDotIdx cs with
  | none => s
  | some d => if (cs.take d).all (fun ch => ch = '.') then s else String.mk (cs.take d)

/-- Script parameters relevant to the modelled control flow (the detection
and tracking thresholds are consumed only by the opaque external services). -/
structure Params where
  target_channel : Nat
  append_to_original : Bool
deriving DecidableEq, Repr

/-- One entry of `input_files`: `getName()` of the selected file. -/
structure InputFile where
  name : String
deriving DecidableEq, Repr

/-- Per-file external behaviour: what `IJ.openImage` returns, and the
TrackMate/StarDist pipeline's outcome for each (timepoint, sub-volume)
invocation. -/
structure FileEnv where
  openResult : Option Img
  outcomes : Nat → Img → TMOutcome

/-- A file written by `IJ.save`: its name within `output_dir` and the saved
image. -/
structure Output where
  filename : String
  img : Img
deriving DecidableEq, Repr

/-- Result of one iteration of the file loop: the file written (if any) and
whether `imp.close()` was reached for the opened source image. -/
structure FileResult where
  output : Option Output
  srcClosed : Bool
deriving DecidableEq, Repr

/-- One iteration of the file loop (lines 43-263): open, validate the target
channel, run the timepoint loop, abort on an empty stack, build the label
hyperstack, then write either the label-only file or the merged
`_with_labels` file depending on `append_to_original` and the source's
channel count. A converter exception is caught by the outer handler without
closing `imp`. -/
def processFile (p : Params) (f : InputFile) (env : FileEnv) : FileResult :=
  match env.openResult with
  | none => { output := none, srcClosed := true }
  | some src =>
    if p.target_channel < 1 ∨ src.nChannels < p.target_channel then
      { output := none, srcClosed := true }
    else
      let stack := outputStackOf src p.target_channel env.outcomes
      if stack.length = 0 then
        { output := none, srcClosed := true }
      else
        match labelHyperOf src stack with
        | none => { output := none, srcClosed := false }
        | some label_imp =>
          let base := splitextBase f.name
          if p.append_to_original then
            if src.nChannels = 1 then
              let merged := setCal (mergeChannels [src, label_imp]) src.cal
              { output := some ⟨base ++ "_with_labels.tif", merged⟩, srcClosed := true }
            else
              let channels :=
                ((List.range src.nChannels).map fun c =>
                  dupRun src (c + 1) (c + 1) 1 src.nSlices 1 src.nFrames) ++ [label_imp]
              let merged := setCal (mergeChannels channels) src.cal
              { output := some ⟨base ++ "_with_labels.tif", merged⟩, srcClosed := true }
          else
            { output := some ⟨base ++ "_label_3D.tif", label_imp⟩, srcClosed := true }

/-- The file loop from position `i` of `enumerate(input_files)`. -/
def runAllFrom (p : Params) (i : Nat) (files : List InputFile) (envs : Nat → FileEnv) :
    List FileResult :=
  match files with
  | [] => []
  | f :: rest => processFile p f (envs i) :: runAllFrom p (i + 1) rest envs

/-- The whole `for file_idx, input_file in enumerate(input_files)` loop. -/
def runAll (p : Params) (files : List InputFile) (envs : Nat → FileEnv) : List FileResult :=
  runAllFrom p 0 files envs

example : (blankFill 2 2 3 1 .empty).length = 3 := by decide

example : (processTimepoint 2 2 3 1 (.success [⟨[1, 2, 3, 4], 16⟩])).1.length = 1 := by
  decide

example : splitextBase ("sample.nd2") = "sample" := by decide

example : splitextBase (".bashrc") = ".bashrc" := by decide

example : splitextBase ("a.b.c") = "a.b" := by decide

/-! ### Helper lemmas -/

theorem frameToZ_labelImgOf (w h : Nat) (l : List SlicePix) :
    frameToZ (labelImgOf w h l) = ⟨w, h, 1, l.length, 1, l, 0⟩ := by
  simp [frameToZ, labelImgOf, setDimensions]

theorem flatMap_map_singleton {α β : Type} (l : List α) (g : α → β) :
    (l.flatMap fun x => [g x]) = l.map g := by
  induction l with
  | nil => rfl
  | cons a l ih => simp [List.flatMap_cons, ih]

theorem dupRun_single (src : Img) (tc t : Nat) (hns : 1 ≤ src.nSlices) :
    dupRun src tc tc 1 src.nSlices t t =
      ⟨src.width, src.height, 1, src.nSlices, 1,
        (List.range src.nSlices).map (fun z => getSliceD src tc (z + 1) t), src.cal⟩ := by
  have hns' : src.nSlices - 1 + 1 = src.nSlices := Nat.sub_add_cancel hns
  have hr1 : List.range 1 = [0] := rfl
  simp only [dupRun, Nat.sub_self, hns', hr1, List.flatMap_cons, List.flatMap_nil,
    List.append_nil, List.map_cons, List.map_nil, Nat.add_zero]
  rw [flatMap_map_singleton]
  simp [Nat.add_comm 1]

theorem successAppend_length (w h t : Nat) (l : List SlicePix) :
    (successAppend w h t l).length = l.length := by
  simp [successAppend, frameToZ_labelImgOf]

theorem blankFill_length (w h ns t : Nat) (tag : SliceTag) :
    (blankFill w h ns t tag).length = ns := by
  simp [blankFill]

theorem processTimepoint_length (w h ns t : Nat) (o : TMOutcome)
    (hexp : ∀ l, o = TMOutcome.success l → l.length = ns) :
    (processTimepoint w h ns t o).1.length = ns := by
  cases o with
  | success l => simpa [processTimepoint, successAppend_length] using hexp l rfl
  | checkInputFail => simp [processTimepoint, blankFill_length]
  | processFail => simp [processTimepoint, blankFill_length]
  | exportNull => simp [processTimepoint, blankFill_length]
  | exception => simp [processTimepoint, blankFill_length]

theorem outputStackOf_length (src : Img) (tc : Nat) (env : Nat → Img → TMOutcome)
    (hexp : ∀ t im l, env t im = TMOutcome.success l → l.length = src.nSlices) :
    (outputStackOf src tc env).length = src.nFrames * src.nSlices := by
  rw [outputStackOf, List.length_flatMap]
  have hmap : (List.range src.nFrames).map
      (fun i => ((processTimepoint src.width src.height src.nSlices (i + 1)
        (timepointOutcome src tc env (i + 1))).1).length) =
      (List.range src.nFrames).map (fun _ => src.nSlices) := by
    refine List.map_congr_left fun i _ => ?_
    exact processTimepoint_length _ _ _ _ _ (fun l hl => hexp _ _ l hl)
  simp only [Function.comp_def]
  rw [hmap]
  simp [List.map_const', List.sum_replicate, smul_eq_mul, mul_comm]

theorem mem_blankFill_pix (w h ns t : Nat) (tag : SliceTag) (s : StackSlice)
    (hs : s ∈ blankFill w h ns t tag) : s.pix = emptySlicePix w h := by
  simp only [blankFill, List.mem_map, List.mem_range] at hs
  obtain ⟨z, _, rfl⟩ := hs
  rfl

theorem outputStackOf_all_blank (src : Img) (tc : Nat) (env : Nat → Img → TMOutcome)
    (hfail : ∀ t im, (env t im).isFailure = true) :
    ∀ s ∈ outputStackOf src tc env, s.pix = emptySlicePix src.width src.height := by
  intro s hs
  rw [outputStackOf, List.mem_flatMap] at hs
  obtain ⟨i, _, hmem⟩ := hs
  have ho := hfail (i + 1) (subVolumeFor src tc (i + 1))
  rw [timepointOutcome] at hmem
  cases henv : env (i + 1) (subVolumeFor src tc (i + 1)) with
  | success l => rw [henv] at ho; simp [TMOutcome.isFailure] at ho
  | checkInputFail =>
    rw [henv] at hmem; exact mem_blankFill_pix _ _ _ _ _ _ hmem
  | processFail =>
    rw [henv] at hmem; exact mem_blankFill_pix _ _ _ _ _ _ hmem
  | exportNull =>
    rw [henv] at hmem; exact mem_blankFill_pix _ _ _ _ _ _ hmem
  | exception =>
    rw [henv] at hmem; exact mem_blankFill_pix _ _ _ _ _ _ hmem

theorem labelHyperOf_eq (src : Img) (stack : List StackSlice)
    (hlen : stack.length = src.nSlices * src.nFrames) :
    labelHyperOf src stack =
      some ⟨src.width, src.height, 1, src.nSlices, src.nFrames,
        stack.map StackSlice.pix, src.cal⟩ := by
  simp [labelHyperOf, toHyperStack, imgOfStack, setCal, hlen]

theorem labelHyperOf_some_inv (src : Img) (stack : List StackSlice) (L : Img)
    (h : labelHyperOf src stack = some L) :
    stack.length = src.nSlices * src.nFrames ∧
    L = ⟨src.width, src.height, 1, src.nSlices, src.nFrames,
      stack.map StackSlice.pix, src.cal⟩ := by
  by_cases hcond : stack.length = src.nSlices * src.nFrames
  · rw [labelHyperOf_eq src stack hcond] at h
    exact ⟨hcond, (Option.some.inj h).symm⟩
  · exfalso
    have hnone : labelHyperOf src stack = none := by
      simp only [labelHyperOf, toHyperStack, imgOfStack, List.length_map, one_mul]
      rw [if_neg (fun hh => hcond (Eq.symm hh))]
      rfl
    rw [hnone] at h
    exact Option.noConfusion h

theorem processFile_writes (p : Params) (f : InputFile) (env : FileEnv) (src : Img)
    (hopen : env.openResult = some src)
    (hvalid : ¬(p.target_channel < 1 ∨ src.nChannels < p.target_channel))
    (hlen : (outputStackOf src p.target_channel env.outcomes).length =
      src.nSlices * src.nFrames)
    (hne : ¬((outputStackOf src p.target_channel env.outcomes).length = 0)) :
    ∃ o, (processFile p f env).output = some o := by
  simp only [processFile, hopen]
  rw [if_neg hvalid, if_neg hne, labelHyperOf_eq src _ hlen]
  by_cases happ : p.append_to_original
  · by_cases hch : src.nChannels = 1 <;> simp [happ, hch]
  · simp [happ]

theorem processFile_empty_abort (p : Params) (f : InputFile) (env : FileEnv) (src : Img)
    (hopen : env.openResult = some src)
    (hempty : outputStackOf src p.target_channel env.outcomes = []) :
    (processFile p f env).output = none := by
  simp only [processFile, hopen]
  by_cases hv : p.target_channel < 1 ∨ src.nChannels < p.target_channel
  · rw [if_pos hv]
  · rw [if_neg hv, if_pos (by rw [hempty]; rfl)]

theorem runAllFrom_getElem (p : Params) (files : List InputFile) (envs : Nat → FileEnv) :
    ∀ i j, (runAllFrom p i files envs)[j]? =
      (files[j]?).map fun f => processFile p f (envs (i + j)) := by
  induction files with
  | nil => intro i j; simp [runAllFrom]
  | cons f rest ih =>
    intro i j
    cases j with
    | zero => simp [runAllFrom]
    | succ j =>
      simp only [runAllFrom, List.getElem?_cons_succ]
      rw [show i + (j + 1) = i + 1 + j from by omega]
      exact ih (i + 1) j

theorem dupRun_nChannels (src : Img) (c z1 z2 t1 t2 : Nat) :
    (dupRun src c c z1 z2 t1 t2).nChannels = 1 := by
  simp [dupRun]

theorem dupRun_channel_full (src : Img) (c : Nat) (hns : 1 ≤ src.nSlices)
    (hnf : 1 ≤ src.nFrames) :
    dupRun src c c 1 src.nSlices 1 src.nFrames =
      ⟨src.width, src.height, 1, src.nSlices, src.nFrames,
        (List.range src.nFrames).flatMap fun ti =>
          (List.range src.nSlices).map fun zi => getSliceD src c (zi + 1) (ti + 1),
        src.cal⟩ := by
  have hns' : src.nSlices - 1 + 1 = src.nSlices := Nat.sub_add_cancel hns
  have hnf' : src.nFrames - 1 + 1 = src.nFrames := Nat.sub_add_cancel hnf
  have hr1 : List.range 1 = [0] := rfl
  simp only [dupRun, Nat.sub_self, hns', hnf', hr1, List.map_cons, List.map_nil,
    Nat.add_zero]
  simp only [flatMap_map_singleton]
  simp [Nat.add_comm 1]

theorem sum_nChannels_of_ones (L : List Img) (h : ∀ x ∈ L, x.nChannels = 1) :
    (L.map Img.nChannels).sum = L.length := by
  induction L with
  | nil => rfl
  | cons a l ih =>
    simp only [List.map_cons, List.sum_cons, List.length_cons,
      h a (List.mem_cons_self a l), ih (fun x hx => h x (List.mem_cons_of_mem a hx))]
    omega

theorem processFile_eq_branch (p : Params) (f : InputFile) (env : FileEnv) (src : Img)
    (L : Img)
    (hopen : env.openResult = some src)
    (hvalid : ¬(p.target_channel < 1 ∨ src.nChannels < p.target_channel))
    (hne : ¬((outputStackOf src p.target_channel env.outcomes).length = 0))
    (hL : labelHyperOf src (outputStackOf src p.target_channel env.outcomes) = some L) :
    processFile p f env =
      if p.append_to_original then
        if src.nChannels = 1 then
          ⟨some ⟨splitextBase f.name ++ "_with_labels.tif",
            setCal (mergeChannels [src, L]) src.cal⟩, true⟩
        else
          ⟨some ⟨splitextBase f.name ++ "_with_labels.tif",
            setCal (mergeChannels (((List.range src.nChannels).map fun c =>
              dupRun src (c + 1) (c + 1) 1 src.nSlices 1 src.nFrames) ++ [L]))
              src.cal⟩, true⟩
      else
        ⟨some ⟨splitextBase f.name ++ "_label_3D.tif", L⟩, true⟩ := by
  simp only [processFile, hopen]
  rw [if_neg hvalid, if_neg hne, hL]

theorem mergeChannels_cons (i : Img) (rest : List Img) :
    (mergeChannels (i :: rest)).nChannels = ((i :: rest).map Img.nChannels).sum ∧
    (mergeChannels (i :: rest)).nSlices = i.nSlices ∧
    (mergeChannels (i :: rest)).nFrames = i.nFrames ∧
    (mergeChannels (i :: rest)).width = i.width ∧
    (mergeChannels (i :: rest)).height = i.height :=
  ⟨rfl, rfl, rfl, rfl, rfl⟩

/-! ### Claim theorems -/

/-- Claim C1 as stated is false: a successful timepoint contributes
`label_imp_t.getNSlices()` slices (the exported image's frame count), not
unconditionally `n_slices`. Concretely, a validated 1-channel, 3-slice,
1-frame source whose exporter returns a single-frame label image leaves the
accumulated stack with 1 slice, not `1 × 3`. -/
theorem slice_count_invariant_cex :
    (1 ≤ 1 ∧ 1 ≤ (⟨1, 1, 1, 3, 1, List.replicate 3 ⟨[7], 16⟩, 0⟩ : Img).nChannels) ∧
    (outputStackOf ⟨1, 1, 1, 3, 1, List.replicate 3 ⟨[7], 16⟩, 0⟩ 1
        (fun _ _ => TMOutcome.success [⟨[9], 16⟩])).length ≠ 1 * 3 := by
  constructor
  · exact ⟨le_refl 1, by decide⟩
  · decide

/-- Claim C1 (amended): for every input file that passes validation, if every
successful timepoint's exported label image has exactly `n_slices` frames
(failed timepoints always contribute exactly `n_slices` blank slices), then
after the per-timepoint loop the accumulated output stack contains exactly
`n_frames × n_slices` slices, regardless of how many timepoints failed. -/
theorem slice_count_invariant (src : Img) (tc : Nat) (env : Nat → Img → TMOutcome)
    (hexp : ∀ t im l, env t im = TMOutcome.success l → l.length = src.nSlices) :
    (outputStackOf src tc env).length = src.nFrames * src.nSlices :=
  outputStackOf_length src tc env hexp

/-- Witness for the amended C1: a 1-channel, 2-slice, 2-frame source whose
exporter always returns a 2-frame label image accumulates `2 × 2` slices. -/
theorem slice_count_invariant_witness :
    (∀ t im l, (fun (_ : Nat) (_ : Img) => TMOutcome.success [⟨[1], 16⟩, ⟨[2], 16⟩]) t im =
        TMOutcome.success l →
      l.length = (⟨1, 1, 1, 2, 2, List.replicate 4 ⟨[7], 16⟩, 0⟩ : Img).nSlices) ∧
    (outputStackOf ⟨1, 1, 1, 2, 2, List.replicate 4 ⟨[7], 16⟩, 0⟩ 1
        (fun _ _ => TMOutcome.success [⟨[1], 16⟩, ⟨[2], 16⟩])).length =
      (⟨1, 1, 1, 2, 2, List.replicate 4 ⟨[7], 16⟩, 0⟩ : Img).nFrames *
      (⟨1, 1, 1, 2, 2, List.replicate 4 ⟨[7], 16⟩, 0⟩ : Img).nSlices := by
  refine ⟨fun t im l h => by cases h; rfl, ?_⟩
  exact slice_count_invariant _ 1 _ (fun t im l h => by cases h; rfl)

/-- Claim C2: for every failed timepoint (checkInput failure, process
failure, null label export, or an exception during the timepoint), exactly
`n_slices` blank slices are appended: each zero-valued, 16-bit, with
`width × height` pixels, carrying the failing timepoint index and z indices
`1..n_slices`. -/
theorem failed_timepoint_blanks (w h ns t : Nat) (o : TMOutcome)
    (hfail : o.isFailure = true) :
    (processTimepoint w h ns t o).1.length = ns ∧
    (processTimepoint w h ns t o).1.map StackSlice.t = List.replicate ns t ∧
    (processTimepoint w h ns t o).1.map StackSlice.z = (List.range ns).map (· + 1) ∧
    ∀ s ∈ (processTimepoint w h ns t o).1,
      s.pix.pixels = List.replicate (w * h) 0 ∧ s.pix.bitDepth = 16 ∧
        s.pix.pixels.length = w * h := by
  have hblank : ∀ tag : SliceTag,
      (blankFill w h ns t tag).length = ns ∧
      (blankFill w h ns t tag).map StackSlice.t = List.replicate ns t ∧
      (blankFill w h ns t tag).map StackSlice.z = (List.range ns).map (· + 1) ∧
      ∀ s ∈ blankFill w h ns t tag,
        s.pix.pixels = List.replicate (w * h) 0 ∧ s.pix.bitDepth = 16 ∧
          s.pix.pixels.length = w * h := by
    intro tag
    refine ⟨blankFill_length w h ns t tag, ?_, ?_, ?_⟩
    · simp [blankFill, List.map_map, Function.comp_def, List.map_const']
    · simp [blankFill, List.map_map, Function.comp_def]
    · intro s hs
      simp only [blankFill, List.mem_map, List.mem_range] at hs
      obtain ⟨z, _, rfl⟩ := hs
      simp [emptySlicePix]
  cases o with
  | success l => simp [TMOutcome.isFailure] at hfail
  | checkInputFail => exact hblank .empty
  | processFail => exact hblank .empty
  | exportNull => exact hblank .empty
  | exception => exact hblank .error

/-- Witness for C2 at a concrete failed timepoint: a `process()` failure on a
2×2 image with 3 z-slices at timepoint 1. -/
theorem failed_timepoint_blanks_witness :
    TMOutcome.processFail.isFailure = true ∧
    ((processTimepoint 2 2 3 1 TMOutcome.processFail).1.length = 3 ∧
      (processTimepoint 2 2 3 1 TMOutcome.processFail).1.map StackSlice.t =
        List.replicate 3 1 ∧
      (processTimepoint 2 2 3 1 TMOutcome.processFail).1.map StackSlice.z =
        (List.range 3).map (· + 1) ∧
      ∀ s ∈ (processTimepoint 2 2 3 1 TMOutcome.processFail).1,
        s.pix.pixels = List.replicate (2 * 2) 0 ∧ s.pix.bitDepth = 16 ∧
          s.pix.pixels.length = 2 * 2) :=
  ⟨rfl, failed_timepoint_blanks 2 2 3 1 TMOutcome.processFail rfl⟩

/-- Claim C6: whenever a file's output is written, the flat accumulated slice
stack was reshaped into a hyperstack with 1 channel, `n_slices` z-slices and
`n_frames` frames carrying the source calibration, and the written image
carries the source calibration. -/
theorem hyperstack_shape_calibration (p : Params) (f : InputFile) (env : FileEnv)
    (src : Img) (o : Output)
    (hopen : env.openResult = some src)
    (hout : (processFile p f env).output = some o) :
    (∃ L, labelHyperOf src (outputStackOf src p.target_channel env.outcomes) = some L ∧
      L.nChannels = 1 ∧ L.nSlices = src.nSlices ∧ L.nFrames = src.nFrames ∧
      L.cal = src.cal ∧
      L.stack = (outputStackOf src p.target_channel env.outcomes).map StackSlice.pix) ∧
    o.img.cal = src.cal := by
  simp only [processFile, hopen] at hout
  split at hout
  · exact absurd hout (by simp)
  · split at hout
    · exact absurd hout (by simp)
    · split at hout
      next => exact absurd hout (by simp)
      next L heq =>
        obtain ⟨_, hLeq⟩ := labelHyperOf_some_inv src _ L heq
        refine ⟨⟨L, heq, by rw [hLeq], by rw [hLeq], by rw [hLeq], by rw [hLeq],
          by rw [hLeq]⟩, ?_⟩
        split at hout
        · split at hout
          · simp only [Option.some.injEq] at hout
            rw [← hout]
            simp [setCal]
          · simp only [Option.some.injEq] at hout
            rw [← hout]
            simp [setCal]
        · simp only [Option.some.injEq] at hout
          rw [← hout, hLeq]

/-- Witness for C6: a 1-channel, 1-slice, 1-frame source with a successful
1-plane export writes `f_label_3D.tif` whose hyperstack has shape (1, 1, 1)
and the source calibration 3. -/
theorem hyperstack_shape_calibration_witness :
    ((⟨some ⟨1, 1, 1, 1, 1, [⟨[5], 16⟩], 3⟩,
        fun _ _ => TMOutcome.success [⟨[9], 16⟩]⟩ : FileEnv).openResult =
      some ⟨1, 1, 1, 1, 1, [⟨[5], 16⟩], 3⟩) ∧
    ((processFile ⟨1, false⟩ ⟨"f.tif"⟩
        ⟨some ⟨1, 1, 1, 1, 1, [⟨[5], 16⟩], 3⟩,
          fun _ _ => TMOutcome.success [⟨[9], 16⟩]⟩).output =
      some ⟨"f_label_3D.tif", ⟨1, 1, 1, 1, 1, [⟨[9], 16⟩], 3⟩⟩) ∧
    ((∃ L, labelHyperOf ⟨1, 1, 1, 1, 1, [⟨[5], 16⟩], 3⟩
        (outputStackOf ⟨1, 1, 1, 1, 1, [⟨[5], 16⟩], 3⟩ 1
          (fun _ _ => TMOutcome.success [⟨[9], 16⟩])) = some L ∧
      L.nChannels = 1 ∧ L.nSlices = 1 ∧ L.nFrames = 1 ∧ L.cal = 3 ∧
      L.stack = (outputStackOf ⟨1, 1, 1, 1, 1, [⟨[5], 16⟩], 3⟩ 1
        (fun _ _ => TMOutcome.success [⟨[9], 16⟩])).map StackSlice.pix) ∧
      (⟨"f_label_3D.tif", ⟨1, 1, 1, 1, 1, [⟨[9], 16⟩], 3⟩⟩ : Output).img.cal = 3) :=
  ⟨rfl, by decide,
    hyperstack_shape_calibration ⟨1, false⟩ ⟨"f.tif"⟩
      ⟨some ⟨1, 1, 1, 1, 1, [⟨[5], 16⟩], 3⟩,
        fun _ _ => TMOutcome.success [⟨[9], 16⟩]⟩
      ⟨1, 1, 1, 1, 1, [⟨[5], 16⟩], 3⟩
      ⟨"f_label_3D.tif", ⟨1, 1, 1, 1, 1, [⟨[9], 16⟩], 3⟩⟩ rfl (by decide)⟩

/-- Claim C9 as stated is false: the zero-slice abort is indeed unreachable
for a validated file with `n_frames ≥ 1` and `n_slices ≥ 1` and non-empty
exports, but such a file does not always get an output: when a successful
export's frame count differs from `n_slices`, the accumulated stack size
differs from `n_frames × n_slices` and the hyperstack conversion throws, so
the file is skipped with no output. -/
theorem abort_unreachable_cex :
    ((1 : Nat) ≤ 1 ∧ 1 ≤ (⟨1, 1, 1, 2, 1, List.replicate 2 ⟨[7], 16⟩, 0⟩ : Img).nChannels ∧
      1 ≤ (⟨1, 1, 1, 2, 1, List.replicate 2 ⟨[7], 16⟩, 0⟩ : Img).nSlices ∧
      1 ≤ (⟨1, 1, 1, 2, 1, List.replicate 2 ⟨[7], 16⟩, 0⟩ : Img).nFrames) ∧
    0 < (outputStackOf ⟨1, 1, 1, 2, 1, List.replicate 2 ⟨[7], 16⟩, 0⟩ 1
      (fun _ _ => TMOutcome.success [⟨[9], 16⟩])).length ∧
    (processFile ⟨1, false⟩ ⟨"x.tif"⟩
      ⟨some ⟨1, 1, 1, 2, 1, List.replicate 2 ⟨[7], 16⟩, 0⟩,
        fun _ _ => TMOutcome.success [⟨[9], 16⟩]⟩).output = none := by
  refine ⟨by decide, by decide, by decide⟩

/-- Claim C9 (amended): for a validated file with `n_frames ≥ 1` and
`n_slices ≥ 1`, every timepoint iteration appends at least one slice, so the
zero-slice abort branch is unreachable; an output is guaranteed when
additionally every successful export returns `n_slices` frames (making the
accumulated count `n_frames × n_slices`, so the hyperstack conversion
succeeds). -/
theorem abort_unreachable (p : Params) (f : InputFile) (env : FileEnv) (src : Img)
    (hopen : env.openResult = some src)
    (hvalid : ¬(p.target_channel < 1 ∨ src.nChannels < p.target_channel))
    (hns : 1 ≤ src.nSlices) (hnf : 1 ≤ src.nFrames)
    (hexp : ∀ t im l, env.outcomes t im = TMOutcome.success l →
      l.length = src.nSlices) :
    (∀ t, 1 ≤ (processTimepoint src.width src.height src.nSlices t
      (timepointOutcome src p.target_channel env.outcomes t)).1.length) ∧
    ¬((outputStackOf src p.target_channel env.outcomes).length = 0) ∧
    ∃ o, (processFile p f env).output = some o := by
  have hlen := outputStackOf_length src p.target_channel env.outcomes hexp
  have hpos : 0 < src.nFrames * src.nSlices := Nat.mul_pos hnf hns
  refine ⟨?_, by rw [hlen]; omega,
    processFile_writes p f env src hopen hvalid (by rw [hlen, Nat.mul_comm])
      (by rw [hlen]; omega)⟩
  intro t
  have hone := processTimepoint_length src.width src.height src.nSlices t
    (timepointOutcome src p.target_channel env.outcomes t)
    (fun l hl => hexp t (subVolumeFor src p.target_channel t) l hl)
  rw [hone]
  exact hns

/-- Witness for the amended C9: a 2-slice, 2-frame source whose exports all
return 2 frames appends at least one slice per timepoint and writes an
output. -/
theorem abort_unreachable_witness :
    ((⟨some ⟨1, 1, 1, 2, 2, List.replicate 4 ⟨[7], 16⟩, 0⟩,
        fun _ _ => TMOutcome.success [⟨[8], 16⟩, ⟨[9], 16⟩]⟩ : FileEnv).openResult =
      some ⟨1, 1, 1, 2, 2, List.replicate 4 ⟨[7], 16⟩, 0⟩) ∧
    (¬((1 : Nat) < 1 ∨
      (⟨1, 1, 1, 2, 2, List.replicate 4 ⟨[7], 16⟩, 0⟩ : Img).nChannels < 1)) ∧
    (∀ t im l, (fun (_ : Nat) (_ : Img) => TMOutcome.success [⟨[8], 16⟩, ⟨[9], 16⟩]) t im =
        TMOutcome.success l →
      l.length = (⟨1, 1, 1, 2, 2, List.replicate 4 ⟨[7], 16⟩, 0⟩ : Img).nSlices) ∧
    ((∀ t, 1 ≤ (processTimepoint 1 1 2 t
        (timepointOutcome ⟨1, 1, 1, 2, 2, List.replicate 4 ⟨[7], 16⟩, 0⟩ 1
          (fun _ _ => TMOutcome.success [⟨[8], 16⟩, ⟨[9], 16⟩]) t)).1.length) ∧
      ¬((outputStackOf ⟨1, 1, 1, 2, 2, List.replicate 4 ⟨[7], 16⟩, 0⟩ 1
        (fun _ _ => TMOutcome.success [⟨[8], 16⟩, ⟨[9], 16⟩])).length = 0) ∧
      ∃ o, (processFile ⟨1, true⟩ ⟨"y.nd2"⟩
        ⟨some ⟨1, 1, 1, 2, 2, List.replicate 4 ⟨[7], 16⟩, 0⟩,
          fun _ _ => TMOutcome.success [⟨[8], 16⟩, ⟨[9], 16⟩]⟩).output = some o) :=
  ⟨rfl, by decide, fun t im l h => by cases h; rfl,
    abort_unreachable ⟨1, true⟩ ⟨"y.nd2"⟩
      ⟨some ⟨1, 1, 1, 2, 2, List.replicate 4 ⟨[7], 16⟩, 0⟩,
        fun _ _ => TMOutcome.success [⟨[8], 16⟩, ⟨[9], 16⟩]⟩
      ⟨1, 1, 1, 2, 2, List.replicate 4 ⟨[7], 16⟩, 0⟩
      rfl (by decide) (by decide) (by decide)
      (fun t im l h => by cases h; rfl)⟩

/-- Claim C3: the output branch is decided by `append_to_original` and the
source channel count: append=false writes the label hyperstack alone as
`<name>_label_3D.tif`; append=true with a 1-channel source writes a 2-channel
merge as `<name>_with_labels.tif`; append=true with an N-channel source
(N > 1) writes an (N+1)-channel merge as `<name>_with_labels.tif`, every
original channel being duplicated over the full z and frame range. -/
theorem append_branch (p : Params) (f : InputFile) (env : FileEnv) (src : Img)
    (hopen : env.openResult = some src)
    (hvalid : ¬(p.target_channel < 1 ∨ src.nChannels < p.target_channel))
    (hns : 1 ≤ src.nSlices) (hnf : 1 ≤ src.nFrames)
    (hlen : (outputStackOf src p.target_channel env.outcomes).length =
      src.nSlices * src.nFrames) :
    (p.append_to_original = false →
      ∃ o, (processFile p f env).output = some o ∧
        o.filename = splitextBase f.name ++ "_label_3D.tif" ∧
        o.img.nChannels = 1 ∧ o.img.nSlices = src.nSlices ∧
        o.img.nFrames = src.nFrames) ∧
    (p.append_to_original = true → src.nChannels = 1 →
      ∃ o, (processFile p f env).output = some o ∧
        o.filename = splitextBase f.name ++ "_with_labels.tif" ∧
        o.img.nChannels = 2 ∧ o.img.nSlices = src.nSlices ∧
        o.img.nFrames = src.nFrames) ∧
    (p.append_to_original = true → 1 < src.nChannels →
      ∃ o, (processFile p f env).output = some o ∧
        o.filename = splitextBase f.name ++ "_with_labels.tif" ∧
        o.img.nChannels = src.nChannels + 1 ∧ o.img.nSlices = src.nSlices ∧
        o.img.nFrames = src.nFrames) ∧
    (∀ c, dupRun src c c 1 src.nSlices 1 src.nFrames =
      ⟨src.width, src.height, 1, src.nSlices, src.nFrames,
        (List.range src.nFrames).flatMap fun ti =>
          (List.range src.nSlices).map fun zi => getSliceD src c (zi + 1) (ti + 1),
        src.cal⟩) := by
  have hne : ¬((outputStackOf src p.target_channel env.outcomes).length = 0) := by
    rw [hlen]
    have := Nat.mul_pos hns hnf
    omega
  have hL := labelHyperOf_eq src (outputStackOf src p.target_channel env.outcomes) hlen
  have hPF := processFile_eq_branch p f env src _ hopen hvalid hne hL
  refine ⟨?_, ?_, ?_, fun c => dupRun_channel_full src c hns hnf⟩
  · intro happ
    rw [hPF, if_neg (by simp [happ])]
    exact ⟨_, rfl, rfl, rfl, rfl, rfl⟩
  · intro happ hch
    rw [hPF, if_pos happ, if_pos hch]
    refine ⟨_, rfl, rfl, ?_, rfl, rfl⟩
    simp [mergeChannels, setCal, hch]
  · intro happ hch1
    have hch : ¬(src.nChannels = 1) := by omega
    rw [hPF, if_pos happ, if_neg hch]
    obtain ⟨m, hm⟩ : ∃ m, src.nChannels = m + 1 := ⟨src.nChannels - 1, by omega⟩
    have hcons : ((List.range src.nChannels).map fun c =>
        dupRun src (c + 1) (c + 1) 1 src.nSlices 1 src.nFrames) ++
          [(⟨src.width, src.height, 1, src.nSlices, src.nFrames,
            (outputStackOf src p.target_channel env.outcomes).map StackSlice.pix,
            src.cal⟩ : Img)] =
        dupRun src 1 1 1 src.nSlices 1 src.nFrames ::
          (((List.range m).map fun k =>
            dupRun src (k + 2) (k + 2) 1 src.nSlices 1 src.nFrames) ++
            [⟨src.width, src.height, 1, src.nSlices, src.nFrames,
              (outputStackOf src p.target_channel env.outcomes).map StackSlice.pix,
              src.cal⟩]) := by
      rw [hm, List.range_succ_eq_map, List.map_cons, List.cons_append]
      simp [List.map_map, Function.comp_def]
    rw [hcons]
    refine ⟨_, rfl, rfl, ?_, ?_, ?_⟩
    · have hones : ∀ x ∈ dupRun src 1 1 1 src.nSlices 1 src.nFrames ::
          (((List.range m).map fun k =>
            dupRun src (k + 2) (k + 2) 1 src.nSlices 1 src.nFrames) ++
            [(⟨src.width, src.height, 1, src.nSlices, src.nFrames,
              (outputStackOf src p.target_channel env.outcomes).map StackSlice.pix,
              src.cal⟩ : Img)]), x.nChannels = 1 := by
        intro x hx
        rcases List.mem_cons.mp hx with rfl | hx
        · exact dupRun_nChannels src 1 1 src.nSlices 1 src.nFrames
        · rcases List.mem_append.mp hx with hx | hx
          · obtain ⟨k, _, rfl⟩ := List.mem_map.mp hx
            exact dupRun_nChannels src (k + 2) 1 src.nSlices 1 src.nFrames
          · rcases List.mem_singleton.mp hx with rfl
            rfl
      have hsum := sum_nChannels_of_ones _ hones
      simp only [setCal]
      rw [(mergeChannels_cons _ _).1, hsum]
      simp [hm]
    · simp only [setCal]
      rw [(mergeChannels_cons _ _).2.1]
      simp only [dupRun]
      omega
    · simp only [setCal]
      rw [(mergeChannels_cons _ _).2.2.1]
      simp only [dupRun]
      omega

/-- Witness for C3: a 2-channel, 1-slice, 1-frame source with append=true and
a conforming 1-plane export takes the multi-channel branch; the conclusion is
the full branch dichotomy at this instance. -/
theorem append_branch_witness :
    ((⟨some ⟨1, 1, 2, 1, 1, List.replicate 2 ⟨[4], 16⟩, 6⟩,
        fun _ _ => TMOutcome.success [⟨[9], 16⟩]⟩ : FileEnv).openResult =
      some ⟨1, 1, 2, 1, 1, List.replicate 2 ⟨[4], 16⟩, 6⟩) ∧
    (¬((1 : Nat) < 1 ∨
      (⟨1, 1, 2, 1, 1, List.replicate 2 ⟨[4], 16⟩, 6⟩ : Img).nChannels < 1)) ∧
    ((outputStackOf ⟨1, 1, 2, 1, 1, List.replicate 2 ⟨[4], 16⟩, 6⟩ 1
        (fun _ _ => TMOutcome.success [⟨[9], 16⟩])).length = 1 * 1) ∧
    ((⟨1, true⟩ : Params).append_to_original = true →
      1 < (⟨1, 1, 2, 1, 1, List.replicate 2 ⟨[4], 16⟩, 6⟩ : Img).nChannels →
      ∃ o, (processFile ⟨1, true⟩ ⟨"m.nd2"⟩
          ⟨some ⟨1, 1, 2, 1, 1, List.replicate 2 ⟨[4], 16⟩, 6⟩,
            fun _ _ => TMOutcome.success [⟨[9], 16⟩]⟩).output = some o ∧
        o.filename = splitextBase ("m.nd2") ++ "_with_labels.tif" ∧
        o.img.nChannels = (⟨1, 1, 2, 1, 1, List.replicate 2 ⟨[4], 16⟩, 6⟩ : Img).nChannels + 1 ∧
        o.img.nSlices = 1 ∧ o.img.nFrames = 1) :=
  ⟨rfl, by decide, by decide,
    (append_branch ⟨1, true⟩ ⟨"m.nd2"⟩
      ⟨some ⟨1, 1, 2, 1, 1, List.replicate 2 ⟨[4], 16⟩, 6⟩,
        fun _ _ => TMOutcome.success [⟨[9], 16⟩]⟩
      ⟨1, 1, 2, 1, 1, List.replicate 2 ⟨[4], 16⟩, 6⟩
      rfl (by decide) (by decide) (by decide) (by decide)).2.2.1⟩

/-- Claim C7: the sub-volume handed to TrackMate for frame `t` is exactly the
source restricted to channel `target_channel`, all z-slices `1..n_slices` and
frame `t`, reinterpreted as a (1 channel, 1 z-slice, `n_slices` frames)
image; and after export the label image's frame axis is reinterpreted back to
z (`n_label_frames` becomes the slice count, the frame count becomes 1). -/
theorem subvolume_extraction (src : Img) (tc t w h : Nat) (l : List SlicePix)
    (hns : 1 ≤ src.nSlices) :
    subVolumeFor src tc t =
      ⟨src.width, src.height, 1, 1, src.nSlices,
        (List.range src.nSlices).map (fun z => getSliceD src tc (z + 1) t), src.cal⟩ ∧
    frameToZ (labelImgOf w h l) = ⟨w, h, 1, l.length, 1, l, 0⟩ := by
  refine ⟨?_, frameToZ_labelImgOf w h l⟩
  rw [subVolumeFor, dupRun_single src tc t hns]
  simp [setDimensions]

/-- Witness for C7 on a concrete 1-channel, 2-slice, 2-frame source at
`target_channel = 1`, `t = 2`, with a 3-plane exported label image. -/
theorem subvolume_extraction_witness :
    1 ≤ (⟨2, 2, 1, 2, 2, List.replicate 4 ⟨[0, 1, 2, 3], 16⟩, 5⟩ : Img).nSlices ∧
    (subVolumeFor ⟨2, 2, 1, 2, 2, List.replicate 4 ⟨[0, 1, 2, 3], 16⟩, 5⟩ 1 2 =
      ⟨2, 2, 1, 1, 2,
        (List.range 2).map (fun z =>
          getSliceD ⟨2, 2, 1, 2, 2, List.replicate 4 ⟨[0, 1, 2, 3], 16⟩, 5⟩ 1 (z + 1) 2),
        5⟩ ∧
      frameToZ (labelImgOf 2 2 [⟨[1], 16⟩, ⟨[2], 16⟩, ⟨[3], 16⟩]) =
        ⟨2, 2, 1, 3, 1, [⟨[1], 16⟩, ⟨[2], 16⟩, ⟨[3], 16⟩], 0⟩) :=
  ⟨by decide,
    subvolume_extraction ⟨2, 2, 1, 2, 2, List.replicate 4 ⟨[0, 1, 2, 3], 16⟩, 5⟩ 1 2 2 2
      [⟨[1], 16⟩, ⟨[2], 16⟩, ⟨[3], 16⟩] (by decide)⟩

/-- Claim C10: for a successful timepoint, the number of slices appended
equals the exported label image's frame count, read back as its slice count
after the frame-to-z reinterpretation; it equals `n_slices` exactly when the
exporter returns as many frames as the `n_slices`-frame sub-volume it was
given. -/
theorem success_append_count (w h ns t : Nat) (l : List SlicePix) :
    (processTimepoint w h ns t (TMOutcome.success l)).1.length =
      (frameToZ (labelImgOf w h l)).nSlices ∧
    (frameToZ (labelImgOf w h l)).nSlices = l.length ∧
    (l.length = ns →
      (processTimepoint w h ns t (TMOutcome.success l)).1.length = ns) := by
  have h1 : (frameToZ (labelImgOf w h l)).nSlices = l.length := by
    rw [frameToZ_labelImgOf]
  have h2 : (processTimepoint w h ns t (TMOutcome.success l)).1.length = l.length := by
    simpa [processTimepoint] using successAppend_length w h t l
  exact ⟨by rw [h1, h2], h1, fun hl => by rw [h2, hl]⟩

/-- Witness for C10: a 2-plane export against `n_slices = 2` appends exactly
2 slices. -/
theorem success_append_count_witness :
    ([⟨[1], 16⟩, ⟨[2], 16⟩] : List SlicePix).length = 2 ∧
    (processTimepoint 4 4 2 1 (TMOutcome.success [⟨[1], 16⟩, ⟨[2], 16⟩])).1.length = 2 :=
  ⟨rfl, (success_append_count 4 4 2 1 [⟨[1], 16⟩, ⟨[2], 16⟩]).2.2 rfl⟩

/-- Claim C4: when `target_channel < 1` or `target_channel > n_channels` the
file is skipped — no output is written, the opened image is closed — and the
file loop still processes every other file independently (each position of
`runAll` is the processing of that file alone). -/
theorem channel_validation_skip (p : Params) (f : InputFile) (env : FileEnv) (src : Img)
    (files : List InputFile) (envs : Nat → FileEnv) (j : Nat)
    (hopen : env.openResult = some src)
    (hbad : p.target_channel < 1 ∨ src.nChannels < p.target_channel) :
    (processFile p f env).output = none ∧ (processFile p f env).srcClosed = true ∧
    (runAll p files envs)[j]? = (files[j]?).map fun g => processFile p g (envs j) := by
  have hred : processFile p f env = { output := none, srcClosed := true } := by
    simp only [processFile, hopen]
    rw [if_pos hbad]
  refine ⟨by rw [hred], by rw [hred], ?_⟩
  simpa [runAll] using runAllFrom_getElem p files envs 0 j

/-- Witness for C4: `target_channel = 3` on a 2-channel source is skipped
with the image closed, while the loop result at position 0 is still the
per-file processing. -/
theorem channel_validation_skip_witness :
    ((⟨some ⟨1, 1, 2, 1, 1, [], 1⟩, fun _ _ => TMOutcome.exception⟩ : FileEnv).openResult =
      some ⟨1, 1, 2, 1, 1, [], 1⟩) ∧
    ((3 : Nat) < 1 ∨ (⟨1, 1, 2, 1, 1, [], 1⟩ : Img).nChannels < 3) ∧
    ((processFile ⟨3, false⟩ ⟨"a.nd2"⟩
        ⟨some ⟨1, 1, 2, 1, 1, [], 1⟩, fun _ _ => TMOutcome.exception⟩).output = none ∧
      (processFile ⟨3, false⟩ ⟨"a.nd2"⟩
        ⟨some ⟨1, 1, 2, 1, 1, [], 1⟩, fun _ _ => TMOutcome.exception⟩).srcClosed = true ∧
      (runAll ⟨3, false⟩ [⟨"a.nd2"⟩]
          (fun _ => ⟨some ⟨1, 1, 2, 1, 1, [], 1⟩, fun _ _ => TMOutcome.exception⟩))[0]? =
        (([⟨"a.nd2"⟩] : List InputFile)[0]?).map fun g =>
          processFile ⟨3, false⟩ g
            ⟨some ⟨1, 1, 2, 1, 1, [], 1⟩, fun _ _ => TMOutcome.exception⟩) :=
  ⟨rfl, Or.inr (by decide),
    channel_validation_skip ⟨3, false⟩ ⟨"a.nd2"⟩
      ⟨some ⟨1, 1, 2, 1, 1, [], 1⟩, fun _ _ => TMOutcome.exception⟩
      ⟨1, 1, 2, 1, 1, [], 1⟩ [⟨"a.nd2"⟩]
      (fun _ => ⟨some ⟨1, 1, 2, 1, 1, [], 1⟩, fun _ _ => TMOutcome.exception⟩) 0 rfl
      (Or.inr (by decide))⟩

/-- Claim C8: with identical parameters and the same deterministic external
behaviour for file `j`, two runs agree at position `j`; moreover position `j`
of a run depends only on that file and its own environment — no state is
carried between file iterations. -/
theorem per_file_independence (p : Params) (files : List InputFile)
    (envs1 envs2 : Nat → FileEnv) (j : Nat) (h : envs1 j = envs2 j) :
    (runAll p files envs1)[j]? = (runAll p files envs2)[j]? ∧
    (runAll p files envs1)[j]? = (files[j]?).map fun f => processFile p f (envs1 j) := by
  have h1 := runAllFrom_getElem p files envs1 0 j
  have h2 := runAllFrom_getElem p files envs2 0 j
  simp only [Nat.zero_add] at h1 h2
  refine ⟨?_, h1⟩
  simp only [runAll]
  rw [h1, h2, h]

/-- Witness for C8: two runs whose environments agree at position 0 (but
differ elsewhere) produce the same result at position 0. -/
theorem per_file_independence_witness :
    ((fun i => match i with
        | 0 => (⟨some ⟨1, 1, 1, 1, 1, [⟨[5], 16⟩], 9⟩,
            fun _ _ => TMOutcome.processFail⟩ : FileEnv)
        | _ + 1 => ⟨none, fun _ _ => TMOutcome.exception⟩) 0 =
      (fun _ => (⟨some ⟨1, 1, 1, 1, 1, [⟨[5], 16⟩], 9⟩,
        fun _ _ => TMOutcome.processFail⟩ : FileEnv)) 0) ∧
    ((runAll ⟨1, true⟩ [⟨"w.tif"⟩]
        (fun i => match i with
          | 0 => (⟨some ⟨1, 1, 1, 1, 1, [⟨[5], 16⟩], 9⟩,
              fun _ _ => TMOutcome.processFail⟩ : FileEnv)
          | _ + 1 => ⟨none, fun _ _ => TMOutcome.exception⟩))[0]? =
      (runAll ⟨1, true⟩ [⟨"w.tif"⟩]
        (fun _ => (⟨some ⟨1, 1, 1, 1, 1, [⟨[5], 16⟩], 9⟩,
          fun _ _ => TMOutcome.processFail⟩ : FileEnv)))[0]? ∧
      (runAll ⟨1, true⟩ [⟨"w.tif"⟩]
        (fun i => match i with
          | 0 => (⟨some ⟨1, 1, 1, 1, 1, [⟨[5], 16⟩], 9⟩,
              fun _ _ => TMOutcome.processFail⟩ : FileEnv)
          | _ + 1 => ⟨none, fun _ _ => TMOutcome.exception⟩))[0]? =
        (([⟨"w.tif"⟩] : List InputFile)[0]?).map fun f =>
          processFile ⟨1, true⟩ f
            (⟨some ⟨1, 1, 1, 1, 1, [⟨[5], 16⟩], 9⟩,
              fun _ _ => TMOutcome.processFail⟩ : FileEnv)) :=
  ⟨rfl,
    per_file_independence ⟨1, true⟩ [⟨"w.tif"⟩]
      (fun i => match i with
        | 0 => (⟨some ⟨1, 1, 1, 1, 1, [⟨[5], 16⟩], 9⟩,
            fun _ _ => TMOutcome.processFail⟩ : FileEnv)
        | _ + 1 => ⟨none, fun _ _ => TMOutcome.exception⟩)
      (fun _ => (⟨some ⟨1, 1, 1, 1, 1, [⟨[5], 16⟩], 9⟩,
        fun _ _ => TMOutcome.processFail⟩ : FileEnv)) 0 rfl⟩

/-- Claim C5: if every timepoint fails, the stack still holds
`n_frames × n_slices` blank slices and the output file is still written; and
for any run of the same file whose accumulated stack is empty, the output is
aborted. -/
theorem all_failed_still_written (p : Params) (f : InputFile) (env env2 : FileEnv)
    (src : Img)
    (hopen : env.openResult = some src)
    (hvalid : ¬(p.target_channel < 1 ∨ src.nChannels < p.target_channel))
    (hns : 1 ≤ src.nSlices) (hnf : 1 ≤ src.nFrames)
    (hfail : ∀ t im, (env.outcomes t im).isFailure = true)
    (hopen2 : env2.openResult = some src)
    (hempty : outputStackOf src p.target_channel env2.outcomes = []) :
    (outputStackOf src p.target_channel env.outcomes).length =
      src.nFrames * src.nSlices ∧
    (∀ s ∈ outputStackOf src p.target_channel env.outcomes,
      s.pix = emptySlicePix src.width src.height) ∧
    (∃ o, (processFile p f env).output = some o) ∧
    (processFile p f env2).output = none := by
  have hexp : ∀ t im l, env.outcomes t im = TMOutcome.success l →
      l.length = src.nSlices := by
    intro t im l hl
    have hf := hfail t im
    rw [hl] at hf
    simp [TMOutcome.isFailure] at hf
  have hlen := outputStackOf_length src p.target_channel env.outcomes hexp
  have hpos : 0 < src.nFrames * src.nSlices := Nat.mul_pos hnf hns
  refine ⟨hlen, outputStackOf_all_blank src p.target_channel env.outcomes hfail,
    processFile_writes p f env src hopen hvalid (by rw [hlen, Nat.mul_comm])
      (by rw [hlen]; omega),
    processFile_empty_abort p f env2 src hopen2 hempty⟩

/-- Witness for C5: the spec's scenario — a 5-slice, 3-frame source with all
three timepoints failing still accumulates 15 blank slices and writes an
output, while a run accumulating zero slices aborts. -/
theorem all_failed_still_written_witness :
    ((⟨some ⟨1, 1, 1, 5, 3, List.replicate 15 ⟨[7], 16⟩, 42⟩,
        fun _ _ => TMOutcome.processFail⟩ : FileEnv).openResult =
      some ⟨1, 1, 1, 5, 3, List.replicate 15 ⟨[7], 16⟩, 42⟩) ∧
    (¬((1 : Nat) < 1 ∨ (⟨1, 1, 1, 5, 3, List.replicate 15 ⟨[7], 16⟩, 42⟩ : Img).nChannels < 1)) ∧
    (∀ t im, (((⟨some ⟨1, 1, 1, 5, 3, List.replicate 15 ⟨[7], 16⟩, 42⟩,
      fun _ _ => TMOutcome.processFail⟩ : FileEnv)).outcomes t im).isFailure = true) ∧
    (outputStackOf ⟨1, 1, 1, 5, 3, List.replicate 15 ⟨[7], 16⟩, 42⟩ 1
      (fun _ _ => TMOutcome.success []) = []) ∧
    ((outputStackOf ⟨1, 1, 1, 5, 3, List.replicate 15 ⟨[7], 16⟩, 42⟩ 1
        (fun _ _ => TMOutcome.processFail)).length = 3 * 5 ∧
      (∀ s ∈ outputStackOf ⟨1, 1, 1, 5, 3, List.replicate 15 ⟨[7], 16⟩, 42⟩ 1
          (fun _ _ => TMOutcome.processFail),
        s.pix = emptySlicePix 1 1) ∧
      (∃ o, (processFile ⟨1, false⟩ ⟨"s.nd2"⟩
        ⟨some ⟨1, 1, 1, 5, 3, List.replicate 15 ⟨[7], 16⟩, 42⟩,
          fun _ _ => TMOutcome.processFail⟩).output = some o) ∧
      (processFile ⟨1, false⟩ ⟨"s.nd2"⟩
        ⟨some ⟨1, 1, 1, 5, 3, List.replicate 15 ⟨[7], 16⟩, 42⟩,
          fun _ _ => TMOutcome.success []⟩).output = none) :=
  ⟨rfl, by decide, fun t im => rfl, by decide,
    all_failed_still_written ⟨1, false⟩ ⟨"s.nd2"⟩
      ⟨some ⟨1, 1, 1, 5, 3, List.replicate 15 ⟨[7], 16⟩, 42⟩,
        fun _ _ => TMOutcome.processFail⟩
      ⟨some ⟨1, 1, 1, 5, 3, List.replicate 15 ⟨[7], 16⟩, 42⟩,
        fun _ _ => TMOutcome.success []⟩
      ⟨1, 1, 1, 5, 3, List.replicate 15 ⟨[7], 16⟩, 42⟩
      rfl (by decide) (by decide) (by decide) (fun t im => rfl) rfl (by decide)⟩
